import Mathlib

/-!
Shallow embedding of the process-monitor core (src/src/main.rs): the
metrics calculator (`calculate_cpu_usage`, `calculate_memory_usage`), the
per-cycle tree builder (the `children_map` grouping and attachment loop of
`main`), the sorter (the `sort_by` dispatch on `SortCriteria`), and the
keyboard-driven view-state machine (the `match key.code` block of `main`).

Modelling conventions:
* `f64` arithmetic is modelled by exact rational arithmetic (`ℚ`); the
  floating-point operations involved are divisions and multiplications of
  small integral quantities, and the claims are about the formulas.
* `u64`/`usize` values are `Nat`, with wraparound made explicit (`u64Add`,
  `usizeSub`, `i64AsU64`) where the source performs machine arithmetic
  whose overflow behaviour matters; Rust release builds wrap, debug
  builds abort, and both are noted where load-bearing.
* `HashMap<i32, Process>` collections are `List Proc` together with
  no-duplicate-pid hypotheses where the map structure matters; membership
  statements are order-insensitive, matching the map's arbitrary
  iteration order.
-/

namespace OSMonitor

/-- `2 ^ 64`, the modulus of `u64` / `usize` arithmetic. -/
def U64MOD : Nat := 2 ^ 64

/-- `usize` subtraction with two's-complement wraparound: Rust release
builds compute `a - b` as `(a + 2^64 - b) mod 2^64` (debug builds abort
on underflow). Used by the `Down`/`Up` handlers (`selected_index`,
`scroll_offset`, `processes.len() - 1`). -/
def usizeSub (a b : Nat) : Nat := (a + (U64MOD - b % U64MOD)) % U64MOD

/-- `u64` addition with wraparound, as in `stat.utime + stat.stime + ...`. -/
def u64Add (a b : Nat) : Nat := (a + b) % U64MOD

/-- The `as u64` cast of an `i64` value: reinterpretation of the
two's-complement bit pattern, i.e. the representative of `x mod 2^64`
in `[0, 2^64)`. Used for `(stat.cutime + stat.cstime) as u64`. -/
def i64AsU64 (x : Int) : Nat := (x.emod (U64MOD : Int)).toNat

/-- `calculate_cpu_usage` (main.rs lines 515-524), with the OS-binding
inputs made explicit: `utime`, `stime`, `starttime` are the `u64` fields
of `stat`, `cutime`, `cstime` its `i64` fields, `uptime` the `u64`
seconds since boot, and `hertz` the clock-tick rate
(`procfs::ticks_per_second().unwrap_or(100)`).
Source: `total_time = stat.utime + stat.stime + (stat.cutime + stat.cstime) as u64`;
`elapsed_time = uptime as f64 - (stat.starttime as f64 / hertz)`;
result `((total_time / hertz) / elapsed_time) * 100` when
`elapsed_time > 0`, else `0`. -/
def calculate_cpu_usage (utime stime : Nat) (cutime cstime : Int)
    (starttime : Nat) (uptime : Nat) (hertz : Nat) : ℚ :=
  let total_time : Nat := u64Add (u64Add utime stime) (i64AsU64 (cutime + cstime))
  let elapsed_time : ℚ := (uptime : ℚ) - (starttime : ℚ) / (hertz : ℚ)
  if elapsed_time > 0 then
    ((total_time : ℚ) / (hertz : ℚ)) / elapsed_time * 100
  else
    0

/-- `calculate_memory_usage` (main.rs lines 526-529): `page_size` is the
OS-binding result of `libc::sysconf(_SC_PAGESIZE)` in bytes, `rss` the
resident-set size in pages from `stat.rss`.
Source: `page_size_kb = sysconf(_SC_PAGESIZE) / 1024.0`;
result `(stat.rss * page_size_kb) / 1024.0`. -/
def calculate_memory_usage (rss : Nat) (page_size : Nat) : ℚ :=
  let page_size_kb : ℚ := (page_size : ℚ) / 1024
  ((rss : ℚ) * page_size_kb) / 1024

/-- Follows the spec's words (§4.1): `memoryPercent = residentPages ×
pageSizeKB / totalMemoryKB × 100`. Stated for comparison with
`calculate_memory_usage`, which is the code's definition. -/
def memoryPercentSpec (residentPages pageSizeKB totalMemoryKB : Nat) : ℚ :=
  (residentPages : ℚ) * (pageSizeKB : ℚ) / (totalMemoryKB : ℚ) * 100

/-- Follows the spec's words (§4.1): `elapsed = uptime − startTick/tickRate`,
`cpuPercent = elapsed > 0 ? (cpuTicks/tickRate) / elapsed × 100 : 0`.
Stated for comparison with `calculate_cpu_usage`, which is the code's
definition. -/
def cpuPercentSpec (cpuTicks : Nat) (tickRate : Nat) (startTick : Nat)
    (uptimeS : Nat) : ℚ :=
  let elapsed : ℚ := (uptimeS : ℚ) - (startTick : ℚ) / (tickRate : ℚ)
  if elapsed > 0 then
    ((cpuTicks : ℚ) / (tickRate : ℚ)) / elapsed * 100
  else
    0

/-- The `Process` record (main.rs lines 36-49), restricted to the fields
the modelled logic reads: `pid`, `ppid`, `priority`, `cpu_usage`,
`mem_usage` and the recursive `children` collection. The display-only
string/char fields (`user`, `state`, `threads`, `time_plus`, `command`)
never influence tree building, sorting or the state machine and are
omitted. `children: HashMap<i32, Process>` is modelled as a list; the
map is keyed by the child's `pid`, which is unique within a snapshot. -/
inductive Proc : Type where
  | mk (pid : Int) (ppid : Int) (priority : Int)
       (cpu_usage : ℚ) (mem_usage : ℚ) (children : List Proc) : Proc

def Proc.pid : Proc → Int
  | .mk p _ _ _ _ _ => p

def Proc.ppid : Proc → Int
  | .mk _ pp _ _ _ _ => pp

def Proc.priority : Proc → Int
  | .mk _ _ pr _ _ _ => pr

def Proc.cpu_usage : Proc → ℚ
  | .mk _ _ _ c _ _ => c

def Proc.mem_usage : Proc → ℚ
  | .mk _ _ _ _ m _ => m

def Proc.children : Proc → List Proc
  | .mk _ _ _ _ _ ch => ch

/-- Replace a record's `children` collection (the effect of the
attachment loop's `process.children.insert(child.pid, child)` calls,
taken all at once). -/
def Proc.withChildren : Proc → List Proc → Proc
  | .mk p pp pr c m _, ch => .mk p pp pr c m ch

/-- The per-cycle tree builder (main.rs lines 123-134).  The source first
builds `children_map : HashMap<i32, Vec<Process>>` by pushing a *clone*
of every record under its `ppid` key (so the clones carry the record's
children as they were before any attachment), then gives each record of
`process_map` the group keyed by its own `pid`, removing consumed
entries.  Since `process_map` is keyed by `pid`, each group is consumed
by the unique record whose `pid` equals the group's key; on a snapshot
with distinct pids this is exactly: each record's new children are the
input records whose `ppid` equals its `pid`. -/
def attachChildren (ps : List Proc) : List Proc :=
  ps.map (fun p => p.withChildren (ps.filter (fun c => c.ppid = p.pid)))

/-- `enum SortCriteria` (main.rs lines 21-27). -/
inductive SortCriteria : Type where
  | CPU
  | Memory
  | PID
  | PR
deriving DecidableEq, Repr

/-- `enum ViewState` (main.rs lines 29-34): the three view modes. -/
inductive ViewState : Type where
  | Processes
  | CrashTracking
  | ProcessTree
deriving DecidableEq, Repr

/-- The sorter (main.rs lines 137-153): `sort_by` with the comparator
chosen by `sort_criteria`.  Rust's `sort_by` is a stable merge sort;
`List.mergeSort` likewise.  The comparators: CPU and Memory descending
(`b.partial_cmp(&a)`), PID ascending (`a.cmp(&b)`), priority descending
(`b.cmp(&a)`); over `ℚ` the `partial_cmp` comparisons are total, matching
the always-finite percentages the metrics computation produces. -/
def sortProcesses (crit : SortCriteria) (ps : List Proc) : List Proc :=
  match crit with
  | .CPU => ps.mergeSort (fun a b => b.cpu_usage ≤ a.cpu_usage)
  | .Memory => ps.mergeSort (fun a b => b.mem_usage ≤ a.mem_usage)
  | .PID => ps.mergeSort (fun a b => a.pid ≤ b.pid)
  | .PR => ps.mergeSort (fun a b => b.priority ≤ a.priority)

/-- The comparator table of spec §4.3, as the sortedness predicate each
criterion's output must satisfy. -/
def sortedByCriteria (crit : SortCriteria) (l : List Proc) : Prop :=
  match crit with
  | .CPU => l.Pairwise (fun a b => b.cpu_usage ≤ a.cpu_usage)
  | .Memory => l.Pairwise (fun a b => b.mem_usage ≤ a.mem_usage)
  | .PID => l.Pairwise (fun a b => a.pid ≤ b.pid)
  | .PR => l.Pairwise (fun a b => b.priority ≤ a.priority)

/-- The keyboard events the `match key.code` block of `main`
distinguishes (main.rs lines 198-303); `other` is the `_ => {}` arm. -/
inductive KeyEvent : Type where
  | charQ
  | charK
  | charT
  | charS
  | charW
  | left
  | right
  | down
  | up
  | charC
  | charM
  | charP
  | charR
  | other
deriving DecidableEq, Repr

/-- The signals the process-control keys request: `k` → SIGKILL,
`s` → SIGSTOP, `w` → SIGCONT (main.rs lines 203-253). -/
inductive SignalKind : Type where
  | SIGKILL
  | SIGSTOP
  | SIGCONT
deriving DecidableEq, Repr

/-- The mutable locals of `main` that survive across loop iterations
(main.rs lines 58-67): the view-state machine's state. -/
structure LoopState : Type where
  scroll_offset : Nat
  selected_index : Nat
  sort_criteria : SortCriteria
  view_state : ViewState
  tree_view_pid : Option Int
  view_i : Nat
deriving DecidableEq, Repr

/-- `let view_states = vec![Processes, CrashTracking, ProcessTree]`
(main.rs line 66). -/
def view_states : List ViewState :=
  [ViewState.Processes, ViewState.CrashTracking, ViewState.ProcessTree]

/-- The initial state (main.rs lines 58-67): scroll 0, selection 0, CPU
sort, Processes view, no tree focus, cycle index 0. -/
def initState : LoopState :=
  { scroll_offset := 0
    selected_index := 0
    sort_criteria := SortCriteria.CPU
    view_state := ViewState.Processes
    tree_view_pid := none
    view_i := 0 }

/-- One key-event transition of the view-state machine (the
`match key.code` block, main.rs lines 198-303).  `processes` is the
sorted slice the frame was drawn from; the handlers read only its length
and `processes.get(selected_index)`.  The second component is the signal
request the process-control keys issue via `kill(pid, sig)`; the call's
success or failure is only printed and never read back into the state.
`view_states[view_i]` is a panicking index in the source; here
`List.getD` with an arbitrary default, unreachable since the index is
always reduced mod 3.  `processes.len() - 1` in the `Down` handler and
the `-= 1` updates in the `Up` handler are `usize` subtractions, modelled
with `usizeSub` (release-build wraparound; debug builds abort on
underflow). -/
def step (processes : List Proc) (s : LoopState) (k : KeyEvent) :
    LoopState × Option (Int × SignalKind) :=
  match k with
  | .charQ => (s, none)
  | .charK =>
    if s.view_state = ViewState.Processes then
      match processes[s.selected_index]? with
      | some p => (s, some (p.pid, SignalKind.SIGKILL))
      | none => (s, none)
    else (s, none)
  | .charT =>
    if s.view_state = ViewState.Processes then
      match processes[s.selected_index]? with
      | some p =>
        ({ s with tree_view_pid := some p.pid,
                  view_state := ViewState.ProcessTree }, none)
      | none => (s, none)
    else (s, none)
  | .charS =>
    if s.view_state = ViewState.Processes then
      match processes[s.selected_index]? with
      | some p => (s, some (p.pid, SignalKind.SIGSTOP))
      | none => (s, none)
    else (s, none)
  | .charW =>
    if s.view_state = ViewState.Processes then
      match processes[s.selected_index]? with
      | some p => (s, some (p.pid, SignalKind.SIGCONT))
      | none => (s, none)
    else (s, none)
  | .left =>
    let vi := (s.view_i + 2) % 3
    ({ s with view_i := vi,
              view_state := view_states.getD vi ViewState.Processes }, none)
  | .right =>
    let vi := (s.view_i + 1) % 3
    ({ s with view_i := vi,
              view_state := view_states.getD vi ViewState.Processes }, none)
  | .down =>
    if s.view_state = ViewState.Processes then
      if s.selected_index < usizeSub processes.length 1 then
        let si := s.selected_index + 1
        ({ s with selected_index := si,
                  scroll_offset :=
                    if s.scroll_offset + 20 ≤ si then s.scroll_offset + 1
                    else s.scroll_offset }, none)
      else (s, none)
    else (s, none)
  | .up =>
    if s.view_state = ViewState.Processes then
      if 0 < s.selected_index then
        let si := usizeSub s.selected_index 1
        ({ s with selected_index := si,
                  scroll_offset :=
                    if si < s.scroll_offset then usizeSub s.scroll_offset 1
                    else s.scroll_offset }, none)
      else (s, none)
    else (s, none)
  | .charC =>
    (if s.view_state = ViewState.Processes then
      { s with sort_criteria := SortCriteria.CPU } else s, none)
  | .charM =>
    (if s.view_state = ViewState.Processes then
      { s with sort_criteria := SortCriteria.Memory } else s, none)
  | .charP =>
    (if s.view_state = ViewState.Processes then
      { s with sort_criteria := SortCriteria.PID } else s, none)
  | .charR =>
    (if s.view_state = ViewState.Processes then
      { s with sort_criteria := SortCriteria.PR } else s, none)
  | .other => (s, none)

/-- The kind of signal a process-control key requests, `none` for every
other key. -/
def controlSignal : KeyEvent → Option SignalKind
  | .charK => some SignalKind.SIGKILL
  | .charS => some SignalKind.SIGSTOP
  | .charW => some SignalKind.SIGCONT
  | _ => none

/-- Concrete records for witnesses: a root process (pid 1). -/
def procA : Proc := Proc.mk 1 0 0 0 0 []

/-- A child of `procA` (pid 2, ppid 1). -/
def procB : Proc := Proc.mk 2 1 5 (3 / 2) 2 []

/-- An orphan record: ppid 9 names no process of the snapshot. -/
def procD : Proc := Proc.mk 3 9 2 1 1 []

/-- A single record (pid 5) for state-machine witnesses. -/
def procC : Proc := Proc.mk 5 1 1 1 1 []

/-- A two-element snapshot with one parent/child edge and an orphan. -/
def psTree : List Proc := [procA, procB, procD]

/-- A one-process sorted slice for state-machine runs. -/
def psOne : List Proc := [procC]

/-! ## Theorems -/

theorem Proc.withChildren_pid (q : Proc) (l : List Proc) :
    (q.withChildren l).pid = q.pid := by
  rcases q with ⟨_, _, _, _, _, _⟩
  rfl

theorem Proc.withChildren_children (q : Proc) (l : List Proc) :
    (q.withChildren l).children = l := by
  rcases q with ⟨_, _, _, _, _, _⟩
  rfl

theorem map_pid_attachChildren (ps : List Proc) :
    (attachChildren ps).map Proc.pid = ps.map Proc.pid := by
  simp [attachChildren, Proc.withChildren_pid]

/-- C1: the spec claims the selection index stays within `[0, n-1]` after
any Up/Down sequence, including from `n = 0`.  The code's `Down` handler
tests `selected_index < processes.len() - 1`; on an empty snapshot
`processes.len() - 1` is a `usize` underflow (abort in a debug build,
`2^64 - 1` in a release build), so from the initial state one `Down`
event moves the selection to index 1, outside any valid range. -/
theorem C1_down_on_empty_snapshot_escapes_bounds :
    (step [] initState KeyEvent.down).1.selected_index = 1 ∧
    ¬ (step [] initState KeyEvent.down).1.selected_index <
        ([] : List Proc).length := by
  constructor
  · rfl
  · decide

/-- C2 counterexample: the spec claims
`memoryPercent = residentPages × pageSizeKB / totalMemoryKB × 100` and
that 256 pages of 4 KiB against 1024000 KiB total yield ≈ 0.1; the code's
`calculate_memory_usage` divides by 1024 instead of by total memory and
yields 1 (MiB) on that input — it never reads total memory at all. -/
theorem C2_counterexample :
    calculate_memory_usage 256 4096 = 1 ∧
    memoryPercentSpec 256 4 1024000 = 1 / 10 ∧
    calculate_memory_usage 256 4096 ≠ memoryPercentSpec 256 4 1024000 := by
  refine ⟨?_, ?_, ?_⟩ <;>
    norm_num [calculate_memory_usage, memoryPercentSpec]

/-- C2 amended: the derived memory figure is the resident set in MiB,
`rss × pageSizeBytes / 2^20`, independent of total system memory (the
UI renders it with an "MB" suffix); 256 pages × 4096 bytes = 1 MiB. -/
theorem C2_memory_usage_is_resident_mib (rss page_size : Nat) :
    calculate_memory_usage rss page_size =
      (rss : ℚ) * (page_size : ℚ) / 1048576 := by
  simp only [calculate_memory_usage]
  rw [← mul_div_assoc, div_div]
  norm_num

/-- C2 amended, witnessed at the spec's own example input. -/
theorem C2_memory_usage_witness :
    calculate_memory_usage 256 4096 = (256 : ℚ) * 4096 / 1048576 :=
  C2_memory_usage_is_resident_mib 256 4096

/-- C3 counterexample: the spec claims `cpuTicks` is the process's own
accumulated user+system ticks; the code also adds the reaped children's
`cutime + cstime`.  With `utime=50, stime=0, cutime=10, cstime=0`,
`tickRate=100`, `startTick=0`, `uptime=1` the code yields 60 while the
spec's own-ticks formula yields 50. -/
theorem C3_counterexample :
    calculate_cpu_usage 50 0 10 0 0 1 100 = 60 ∧
    cpuPercentSpec (50 + 0) 100 0 1 = 50 ∧
    calculate_cpu_usage 50 0 10 0 0 1 100 ≠ cpuPercentSpec (50 + 0) 100 0 1 := by
  have ht : u64Add (u64Add 50 0) (i64AsU64 10) = 60 := rfl
  refine ⟨?_, ?_, ?_⟩ <;>
    norm_num [calculate_cpu_usage, cpuPercentSpec, ht]

/-- C3 amended: the code computes exactly the spec's formula with
`cpuTicks` taken as `utime + stime + (cutime + cstime) as u64` — own
plus reaped-children ticks (with `u64` wraparound) — and the spec's
end-to-end example (`cpuTicks=50`, `tickRate=100`, `startTick=0`,
`uptime=1` → 50.0) holds when the children's ticks are zero. -/
theorem C3_cpu_usage_matches_spec_with_children_ticks :
    (∀ (utime stime : Nat) (cutime cstime : Int) (starttime uptime hertz : Nat),
      calculate_cpu_usage utime stime cutime cstime starttime uptime hertz =
        cpuPercentSpec (u64Add (u64Add utime stime) (i64AsU64 (cutime + cstime)))
          hertz starttime uptime) ∧
    calculate_cpu_usage 50 0 0 0 0 1 100 = 50 := by
  constructor
  · intro utime stime cutime cstime starttime uptime hertz
    rfl
  · norm_num [calculate_cpu_usage, u64Add, i64AsU64, U64MOD]

/-- C6: whenever `elapsed = uptime − startTick/tickRate ≤ 0`, the CPU
percentage is exactly 0: the guard `elapsed_time > 0.0` routes every
non-positive elapsed time to the constant `0.0`, so no division by the
elapsed time happens. -/
theorem C6_cpu_usage_zero_when_elapsed_nonpositive
    (utime stime : Nat) (cutime cstime : Int) (starttime uptime hertz : Nat)
    (h : (uptime : ℚ) - (starttime : ℚ) / (hertz : ℚ) ≤ 0) :
    calculate_cpu_usage utime stime cutime cstime starttime uptime hertz = 0 := by
  simp only [calculate_cpu_usage]
  rw [if_neg (not_lt.mpr h)]

/-- C6 witnessed at `uptime = 0`, `starttime = 100`, `hertz = 100`
(elapsed = −1). -/
theorem C6_witness :
    ((0 : Nat) : ℚ) - ((100 : Nat) : ℚ) / ((100 : Nat) : ℚ) ≤ 0 ∧
    calculate_cpu_usage 5 5 0 0 100 0 100 = 0 :=
  ⟨by norm_num,
   C6_cpu_usage_zero_when_elapsed_nonpositive 5 5 0 0 100 0 100 (by norm_num)⟩

/-- C4: in the tree built each cycle, every record stored inside a
parent's children set itself has an empty children set — the clones
pushed into `children_map` are taken before any attachment, so when the
snapshot's records start childless (as constructed in `main`), nothing
ever nests deeper than one level under an attached child. -/
theorem C4_attached_children_are_childless (ps : List Proc)
    (h : ∀ q ∈ ps, q.children = []) :
    ∀ p ∈ attachChildren ps, ∀ c ∈ p.children, c.children = [] := by
  intro p hp c hc
  simp only [attachChildren, List.mem_map] at hp
  obtain ⟨q, hq, rfl⟩ := hp
  rw [Proc.withChildren_children] at hc
  exact h c (List.mem_of_mem_filter hc)

/-- C4 witnessed on a three-record snapshot with a parent/child edge. -/
theorem C4_witness :
    (∀ q ∈ psTree, q.children = []) ∧
    (∀ p ∈ attachChildren psTree, ∀ c ∈ p.children, c.children = []) := by
  have h : ∀ q ∈ psTree, q.children = [] := by
    intro q hq
    simp only [psTree, List.mem_cons, List.not_mem_nil, or_false] at hq
    rcases hq with rfl | rfl | rfl <;> rfl
  exact ⟨h, C4_attached_children_are_childless psTree h⟩

/-- C8: on a snapshot with distinct pids, (1) every attached child's
declared parent id is the pid of the record holding it — so a record
whose `ppid` names no pid of the snapshot appears in no children set;
(2) a record (identified by its pid) sits in the children set of at most
one record; (3) no children set holds two records with the same pid. -/
theorem C8_orphans_unattached_and_single_insertion (ps : List Proc)
    (hnd : (ps.map Proc.pid).Nodup) :
    (∀ p ∈ attachChildren ps, ∀ c ∈ p.children,
        c.ppid = p.pid ∧ p.pid ∈ ps.map Proc.pid) ∧
    (∀ p₁ ∈ attachChildren ps, ∀ p₂ ∈ attachChildren ps,
        ∀ c₁ ∈ p₁.children, ∀ c₂ ∈ p₂.children, c₁.pid = c₂.pid → p₁ = p₂) ∧
    (∀ p ∈ attachChildren ps, (p.children.map Proc.pid).Nodup) := by
  have hnd2 : ((attachChildren ps).map Proc.pid).Nodup := by
    rw [map_pid_attachChildren]
    exact hnd
  refine ⟨?_, ?_, ?_⟩
  · intro p hp c hc
    simp only [attachChildren, List.mem_map] at hp
    obtain ⟨q, hq, rfl⟩ := hp
    rw [Proc.withChildren_children] at hc
    rw [Proc.withChildren_pid]
    have := List.of_mem_filter hc
    refine ⟨by simpa using this, List.mem_map.2 ⟨q, hq, rfl⟩⟩
  · intro p₁ hp₁ p₂ hp₂ c₁ hc₁ c₂ hc₂ hpid
    obtain ⟨q₁, hq₁, rfl⟩ := List.mem_map.1 (by simpa [attachChildren] using hp₁)
    obtain ⟨q₂, hq₂, rfl⟩ := List.mem_map.1 (by simpa [attachChildren] using hp₂)
    rw [Proc.withChildren_children] at hc₁ hc₂
    have hm₁ : c₁ ∈ ps := List.mem_of_mem_filter hc₁
    have hm₂ : c₂ ∈ ps := List.mem_of_mem_filter hc₂
    have hc : c₁ = c₂ := List.inj_on_of_nodup_map hnd hm₁ hm₂ hpid
    have e₁ : c₁.ppid = q₁.pid := by simpa using List.of_mem_filter hc₁
    have e₂ : c₂.ppid = q₂.pid := by simpa using List.of_mem_filter hc₂
    have hq : q₁ = q₂ := by
      refine List.inj_on_of_nodup_map hnd hq₁ hq₂ ?_
      rw [← e₁, ← e₂, hc]
    rw [hq]
  · intro p hp
    simp only [attachChildren, List.mem_map] at hp
    obtain ⟨q, hq, rfl⟩ := hp
    rw [Proc.withChildren_children]
    exact hnd.sublist ((List.filter_sublist ps).map Proc.pid)

/-- C8 witnessed on a snapshot with distinct pids, a parent/child edge
and an orphan record. -/
theorem C8_witness :
    (psTree.map Proc.pid).Nodup ∧
    ((∀ p ∈ attachChildren psTree, ∀ c ∈ p.children,
        c.ppid = p.pid ∧ p.pid ∈ psTree.map Proc.pid) ∧
     (∀ p₁ ∈ attachChildren psTree, ∀ p₂ ∈ attachChildren psTree,
        ∀ c₁ ∈ p₁.children, ∀ c₂ ∈ p₂.children, c₁.pid = c₂.pid → p₁ = p₂) ∧
     (∀ p ∈ attachChildren psTree, (p.children.map Proc.pid).Nodup)) :=
  ⟨by decide, C8_orphans_unattached_and_single_insertion psTree (by decide)⟩

/-- C5 counterexample: from the initial state over a one-process
snapshot, pressing `t` (focus tree) and then `Right` reaches a state
whose view mode is CrashTracking — not ProcessTree — while the
tree-focus pid is still `some 5`: the code never clears
`tree_view_pid`, so "cleared otherwise" fails. -/
theorem C5_counterexample :
    (step psOne (step psOne initState KeyEvent.charT).1 KeyEvent.right).1.view_state ≠
      ViewState.ProcessTree ∧
    (step psOne (step psOne initState KeyEvent.charT).1 KeyEvent.right).1.tree_view_pid =
      some 5 := by
  exact ⟨by decide, rfl⟩

/-- C5 amended: the tree-focus pid is captured exactly by the `t`
(focus-tree) action — in Processes view with a resolvable selection it
becomes the selected record's pid and the view switches to ProcessTree —
and no other transition ever changes it; in particular it is never
cleared, so it can persist in states whose view mode is not
ProcessTree. -/
theorem C5_tree_focus_set_only_never_cleared (ps : List Proc) (s : LoopState)
    (k : KeyEvent) :
    (step ps s k).1.tree_view_pid = s.tree_view_pid ∨
    (k = KeyEvent.charT ∧ s.view_state = ViewState.Processes ∧
      ∃ p, ps[s.selected_index]? = some p ∧
        (step ps s k).1.tree_view_pid = some p.pid ∧
        (step ps s k).1.view_state = ViewState.ProcessTree) := by
  cases k with
  | charT =>
    by_cases hv : s.view_state = ViewState.Processes
    · cases hp : ps[s.selected_index]? with
      | none => left; simp [step, hv, hp]
      | some p =>
        right
        refine ⟨rfl, hv, p, rfl, ?_, ?_⟩ <;> simp [step, hv, hp]
    · left; simp [step, hv]
  | charQ => left; rfl
  | left => left; rfl
  | right => left; rfl
  | other => left; rfl
  | _ =>
    left
    simp only [step]
    split <;> (try split) <;> rfl

/-- C9 counterexample: the focus-tree action sets the view mode to
ProcessTree without touching the cycle index `view_i`, so from the
reachable state just after `t`, three `Right` presses land on Processes,
not back on ProcessTree. -/
theorem C9_counterexample :
    (step psOne initState KeyEvent.charT).1.view_state = ViewState.ProcessTree ∧
    (step psOne (step psOne (step psOne (step psOne initState KeyEvent.charT).1
        KeyEvent.right).1 KeyEvent.right).1 KeyEvent.right).1.view_state =
      ViewState.Processes ∧
    ViewState.Processes ≠ ViewState.ProcessTree := by
  exact ⟨rfl, rfl, by decide⟩

/-- C9 amended: in any state whose view mode agrees with the cycle index
(`view_state = view_states[view_i]`, which holds in every state not just
produced by the focus-tree action), three `Right` presses return the
view mode to its starting value, and `Left` then `Right` is the identity
on the view mode. -/
theorem C9_cycle_identity_when_mode_matches_index (ps : List Proc)
    (s : LoopState) (hv : s.view_i < 3)
    (hs : s.view_state = view_states.getD s.view_i ViewState.Processes) :
    (step ps (step ps (step ps s KeyEvent.right).1 KeyEvent.right).1
        KeyEvent.right).1.view_state = s.view_state ∧
    (step ps (step ps s KeyEvent.left).1 KeyEvent.right).1.view_state =
      s.view_state := by
  have h3 : s.view_i = 0 ∨ s.view_i = 1 ∨ s.view_i = 2 := by omega
  rcases h3 with h | h | h <;> simp [step, view_states, h, hs]

/-- C9 amended, witnessed at the initial state over an empty slice. -/
theorem C9_witness :
    initState.view_i < 3 ∧
    initState.view_state = view_states.getD initState.view_i ViewState.Processes ∧
    ((step [] (step [] (step [] initState KeyEvent.right).1 KeyEvent.right).1
        KeyEvent.right).1.view_state = initState.view_state ∧
     (step [] (step [] initState KeyEvent.left).1 KeyEvent.right).1.view_state =
       initState.view_state) :=
  ⟨by decide, rfl,
    C9_cycle_identity_when_mode_matches_index [] initState (by decide) rfl⟩

/-- C10: a process-control key (`k` terminate, `s` suspend, `w` resume)
leaves the whole loop state unchanged — view mode, sort criterion,
selection, scroll and tree focus — and requests its signal exactly when
the view is Processes and the selection resolves to a record, for that
record's pid.  The request's success or failure is only printed, so the
state is independent of the outcome. -/
theorem C10_control_keys_frame (ps : List Proc) (s : LoopState)
    (k : KeyEvent) (sig : SignalKind) (h : controlSignal k = some sig) :
    (step ps s k).1 = s ∧
    (step ps s k).2 =
      (if s.view_state = ViewState.Processes then
        (ps[s.selected_index]?).map (fun p => (p.pid, sig))
      else none) := by
  cases k <;> simp only [controlSignal, Option.some.injEq, reduceCtorEq] at h <;>
    subst h <;>
    by_cases hv : s.view_state = ViewState.Processes <;>
    simp only [step, hv, if_true, if_false, reduceIte] <;>
    cases hp : ps[s.selected_index]? <;> simp [hp]

/-- C10 witnessed: `k` on the initial state over a one-process slice
requests SIGKILL for pid 5 and leaves the state untouched. -/
theorem C10_witness :
    controlSignal KeyEvent.charK = some SignalKind.SIGKILL ∧
    ((step psOne initState KeyEvent.charK).1 = initState ∧
     (step psOne initState KeyEvent.charK).2 =
       (if initState.view_state = ViewState.Processes then
         (psOne[initState.selected_index]?).map
           (fun p => (p.pid, SignalKind.SIGKILL))
       else none)) :=
  ⟨rfl, C10_control_keys_frame psOne initState KeyEvent.charK
    SignalKind.SIGKILL rfl⟩

theorem pairwise_mergeSort_rel {α : Type} (r : α → α → Prop) [DecidableRel r]
    (htrans : ∀ a b c, r a b → r b c → r a c)
    (htotal : ∀ a b, r a b ∨ r b a) (l : List α) :
    (l.mergeSort fun a b => r a b).Pairwise r := by
  have h : (l.mergeSort fun a b => r a b).Pairwise
      fun a b => decide (r a b) = true := by
    apply List.sorted_mergeSort
    · intro a b c hab hbc
      simp only [decide_eq_true_eq] at hab hbc ⊢
      exact htrans a b c hab hbc
    · intro a b
      simp only [Bool.or_eq_true, decide_eq_true_eq]
      exact htotal a b
  exact h.imp fun hab => of_decide_eq_true hab

/-- C7: for every sort criterion the sorted list is a permutation of the
snapshot, ordered per the comparator table — CPU and Memory by
descending percentage, PID ascending, Priority descending — and over the
always-finite rational percentages each comparator is total and
transitive (so the `partial_cmp(..).unwrap()` never sees an incomparable
pair, equal values included); with the snapshot's unique pids, sorting
by PID is strictly ascending. -/
theorem C7_sorter_total_order (crit : SortCriteria) (ps : List Proc)
    (hnd : (ps.map Proc.pid).Nodup) :
    (sortProcesses crit ps).Perm ps ∧
    sortedByCriteria crit (sortProcesses crit ps) ∧
    ((sortProcesses SortCriteria.PID ps).map Proc.pid).Pairwise (· < ·) := by
  have hpid : (sortProcesses SortCriteria.PID ps).Pairwise
      fun a b => a.pid ≤ b.pid :=
    pairwise_mergeSort_rel (fun a b => a.pid ≤ b.pid)
      (fun _ _ _ hab hbc => le_trans hab hbc) (fun a b => le_total a.pid b.pid) ps
  refine ⟨?_, ?_, ?_⟩
  · cases crit <;> exact List.mergeSort_perm ps _
  · cases crit
    · exact pairwise_mergeSort_rel (fun a b => b.cpu_usage ≤ a.cpu_usage)
        (fun _ _ _ hab hbc => le_trans hbc hab)
        (fun a b => (le_total b.cpu_usage a.cpu_usage)) ps
    · exact pairwise_mergeSort_rel (fun a b => b.mem_usage ≤ a.mem_usage)
        (fun _ _ _ hab hbc => le_trans hbc hab)
        (fun a b => (le_total b.mem_usage a.mem_usage)) ps
    · exact hpid
    · exact pairwise_mergeSort_rel (fun a b => b.priority ≤ a.priority)
        (fun _ _ _ hab hbc => le_trans hbc hab)
        (fun a b => (le_total b.priority a.priority)) ps
  · have hperm : (sortProcesses SortCriteria.PID ps).Perm ps :=
      List.mergeSort_perm ps _
    have hnd2 : ((sortProcesses SortCriteria.PID ps).map Proc.pid).Nodup :=
      ((hperm.map Proc.pid).nodup_iff).2 hnd
    have hmap : ((sortProcesses SortCriteria.PID ps).map Proc.pid).Pairwise
        (· ≤ ·) :=
      hpid.map Proc.pid fun _ _ h => h
    exact (hmap.and hnd2).imp fun hab => lt_of_le_of_ne hab.1 hab.2

/-- C7 witnessed at the PID criterion on a snapshot with distinct pids. -/
theorem C7_witness :
    (psTree.map Proc.pid).Nodup ∧
    ((sortProcesses SortCriteria.PID psTree).Perm psTree ∧
     sortedByCriteria SortCriteria.PID (sortProcesses SortCriteria.PID psTree) ∧
     ((sortProcesses SortCriteria.PID psTree).map Proc.pid).Pairwise (· < ·)) :=
  ⟨by decide, C7_sorter_total_order SortCriteria.PID psTree (by decide)⟩

end OSMonitor
